import Mathlib

/-! Lean model of the day 4 program: a rectangular occupancy grid, an
accessibility predicate over the eight neighboring offsets, and an
iterative removal loop run to a fixpoint. Definitions mirror the
source functions in src/day_4/src/main.rs; machine indices are `Nat`,
signed probe coordinates are `Int`, and out-of-range list reads use
`List.getD` with default `GridType.Empty` (the source never performs
such a read on well-formed grids, proved below). -/

/-- Cell states of the grid: `Empty` for a dot, `PaperRoll` for an at sign
(enum `GridType` in the source). -/
inductive GridType where
  | Empty
  | PaperRoll
deriving DecidableEq

/-- The grid structure from the source: row and column counts plus the
row-major cell data (`struct Grid`). -/
structure Grid where
  n_rows : Nat
  n_columns : Nat
  data : List (List GridType)
deriving DecidableEq

/-- `Grid::is_within_bounds`: a signed coordinate pair is within bounds iff
both components are nonnegative and below the stored dimensions. -/
def Grid.is_within_bounds (g : Grid) (row col : Int) : Bool :=
  row ≥ 0 && row < (g.n_rows : Int) && col ≥ 0 && col < (g.n_columns : Int)

/-- The cell stored at `(row, col)`; out-of-range reads default to `Empty`
(the source indexes directly, which is safe for the in-range reads it
performs). -/
def Grid.cell (g : Grid) (row col : Nat) : GridType :=
  (g.data.getD row []).getD col GridType.Empty

/-- `Grid::is_paper_roll`: the cell at `(row, col)` is `PaperRoll`. -/
def Grid.is_paper_roll (g : Grid) (row col : Nat) : Bool :=
  decide (g.cell row col = GridType.PaperRoll)

/-- `Grid::remove_item`: set the cell at `(row, col)` to `Empty`. -/
def Grid.remove_item (g : Grid) (row col : Nat) : Grid :=
  { g with data := g.data.set row ((g.data.getD row []).set col GridType.Empty) }

/-- Number of `PaperRoll` cells in the grid (the termination measure of the
removal loop). -/
def Grid.occupiedCount (g : Grid) : Nat :=
  (g.data.map (fun row => row.countP (fun x => decide (x = GridType.PaperRoll)))).sum

/-- Well-formedness: the stored dimensions describe the data — there are
`n_rows` rows and every row has `n_columns` cells (the rectangularity
invariant the source constructor establishes for rectangular input). -/
def Grid.WF (g : Grid) : Prop :=
  g.data.length = g.n_rows ∧ ∀ row ∈ g.data, row.length = g.n_columns

instance (g : Grid) : Decidable g.WF := by
  unfold Grid.WF
  infer_instance

/-- `ForkLiftsHelper::ADJACENT_OFFSETS`: the eight unit offsets, orthogonal
and diagonal, in source order. -/
def ADJACENT_OFFSETS : List (Int × Int) :=
  [(1, 0), (0, 1), (1, 1), (-1, 0), (0, -1), (-1, -1), (-1, 1), (1, -1)]

/-- `ForkLiftsHelper::is_item_accessible`: an occupied cell is accessible iff
strictly fewer than 4 of the eight offset positions are both within bounds
and occupied. -/
def is_item_accessible (g : Grid) (row col : Nat) : Bool :=
  if !g.is_paper_roll row col then
    false
  else
    decide ((((ADJACENT_OFFSETS.map
        (fun o => ((row : Int) + o.1, (col : Int) + o.2))).filter
        (fun p => g.is_within_bounds p.1 p.2 && g.is_paper_roll p.1.toNat p.2.toNat)).length) < 4)

/-- `ForkLiftsHelper::find_accessible_paper_rolls`: the row-major list of all
coordinates whose cell is currently accessible. -/
def find_accessible_paper_rolls (g : Grid) : List (Nat × Nat) :=
  ((List.range g.n_rows).flatMap
      (fun row_index => (List.range g.n_columns).map (fun col_index => (row_index, col_index)))).filter
    (fun p => is_item_accessible g p.1 p.2)

/-- Apply `Grid::remove_item` at every coordinate of the list, left to right
(the removal for-loop of one pass). -/
def removeAll (g : Grid) (coords : List (Nat × Nat)) : Grid :=
  coords.foldl (fun acc p => acc.remove_item p.1 p.2) g

/-- Effect of one removal on a cell: the removed position reads `Empty`,
every other position is unchanged. -/
theorem cell_remove_item (g : Grid) (r' c' r c : Nat) :
    (g.remove_item r' c').cell r c =
      if r = r' ∧ c = c' then GridType.Empty else g.cell r c := by
  unfold Grid.remove_item Grid.cell
  simp only [List.getD_eq_getElem?_getD]
  by_cases hr : r = r'
  · subst hr
    by_cases hlt : r < g.data.length
    · rw [List.getElem?_set_self hlt, Option.getD_some]
      by_cases hc : c = c'
      · subst hc
        by_cases hclt : c < (g.data[r]?.getD []).length
        · rw [List.getElem?_set_self hclt]
          simp
        · rw [List.set_eq_of_length_le (Nat.le_of_not_lt hclt),
            List.getElem?_eq_none (Nat.le_of_not_lt hclt)]
          simp
      · rw [List.getElem?_set_ne (fun h => hc h.symm)]
        simp [hc]
    · rw [List.set_eq_of_length_le (Nat.le_of_not_lt hlt),
        List.getElem?_eq_none (Nat.le_of_not_lt hlt)]
      simp
  · rw [List.getElem?_set_ne (fun h => hr h.symm)]
    simp [hr]

/-- Setting one cell of a row to `Empty` never increases the row's occupied
count. -/
theorem countP_set_empty_le (l : List GridType) (c : Nat) :
    (l.set c GridType.Empty).countP (fun x => decide (x = GridType.PaperRoll)) ≤
      l.countP (fun x => decide (x = GridType.PaperRoll)) := by
  induction l generalizing c with
  | nil => simp
  | cons a t ih =>
    cases c with
    | zero =>
      rw [List.set_cons_zero]
      have hL : List.countP (fun x => decide (x = GridType.PaperRoll)) (GridType.Empty :: t) =
          List.countP (fun x => decide (x = GridType.PaperRoll)) t :=
        List.countP_cons_of_neg _ _ (by simp)
      rw [hL, List.countP_cons]
      omega
    | succ c =>
      simp only [List.set_cons_succ, List.countP_cons]
      exact Nat.add_le_add_right (ih c) _

/-- Setting a cell that holds `PaperRoll` to `Empty` strictly decreases the
row's occupied count. -/
theorem countP_set_empty_lt (l : List GridType) (c : Nat)
    (h : l.getD c GridType.Empty = GridType.PaperRoll) :
    (l.set c GridType.Empty).countP (fun x => decide (x = GridType.PaperRoll)) <
      l.countP (fun x => decide (x = GridType.PaperRoll)) := by
  induction l generalizing c with
  | nil => simp at h
  | cons a t ih =>
    cases c with
    | zero =>
      simp only [List.getD_cons_zero] at h
      subst h
      simp [List.countP_cons]
    | succ c =>
      simp only [List.getD_cons_succ] at h
      simp only [List.set_cons_succ, List.countP_cons]
      exact Nat.add_lt_add_right (ih c h) _

/-- Data-level form of `occupiedCount_remove_item_le`. -/
theorem dataCount_remove_le (L : List (List GridType)) (r c : Nat) :
    ((L.set r ((L.getD r []).set c GridType.Empty)).map
        (fun row => row.countP (fun x => decide (x = GridType.PaperRoll)))).sum ≤
      (L.map (fun row => row.countP (fun x => decide (x = GridType.PaperRoll)))).sum := by
  induction L generalizing r with
  | nil => simp
  | cons hd t ih =>
    cases r with
    | zero =>
      simp only [List.getD_cons_zero, List.set_cons_zero, List.map_cons, List.sum_cons]
      exact Nat.add_le_add_right (countP_set_empty_le hd c) _
    | succ r =>
      simp only [List.getD_cons_succ, List.set_cons_succ, List.map_cons, List.sum_cons]
      exact Nat.add_le_add_left (ih r) _

/-- Data-level form of `occupiedCount_remove_item_lt`. -/
theorem dataCount_remove_lt (L : List (List GridType)) (r c : Nat)
    (h : (L.getD r []).getD c GridType.Empty = GridType.PaperRoll) :
    ((L.set r ((L.getD r []).set c GridType.Empty)).map
        (fun row => row.countP (fun x => decide (x = GridType.PaperRoll)))).sum <
      (L.map (fun row => row.countP (fun x => decide (x = GridType.PaperRoll)))).sum := by
  induction L generalizing r with
  | nil => simp at h
  | cons hd t ih =>
    cases r with
    | zero =>
      simp only [List.getD_cons_zero] at h
      simp only [List.getD_cons_zero, List.set_cons_zero, List.map_cons, List.sum_cons]
      exact Nat.add_lt_add_right (countP_set_empty_lt hd c h) _
    | succ r =>
      simp only [List.getD_cons_succ] at h
      simp only [List.getD_cons_succ, List.set_cons_succ, List.map_cons, List.sum_cons]
      exact Nat.add_lt_add_left (ih r h) _

/-- Removing any single item never increases the occupied count. -/
theorem occupiedCount_remove_item_le (g : Grid) (r c : Nat) :
    (g.remove_item r c).occupiedCount ≤ g.occupiedCount :=
  dataCount_remove_le g.data r c

/-- Removing an item that is a paper roll strictly decreases the occupied
count. -/
theorem occupiedCount_remove_item_lt (g : Grid) (r c : Nat)
    (h : g.is_paper_roll r c = true) :
    (g.remove_item r c).occupiedCount < g.occupiedCount := by
  have h' : (g.data.getD r []).getD c GridType.Empty = GridType.PaperRoll := by
    simpa [Grid.is_paper_roll, Grid.cell] using h
  exact dataCount_remove_lt g.data r c h'

/-- Removing any list of items never increases the occupied count. -/
theorem occupiedCount_removeAll_le (coords : List (Nat × Nat)) (g : Grid) :
    (removeAll g coords).occupiedCount ≤ g.occupiedCount := by
  induction coords generalizing g with
  | nil => exact Nat.le_refl _
  | cons p t ih =>
    have h1 : removeAll g (p :: t) = removeAll (g.remove_item p.1 p.2) t := rfl
    rw [h1]
    exact Nat.le_trans (ih _) (occupiedCount_remove_item_le g p.1 p.2)

/-- Removing a nonempty list whose head is a paper roll strictly decreases
the occupied count. -/
theorem occupiedCount_removeAll_lt (g : Grid) (p : Nat × Nat) (t : List (Nat × Nat))
    (h : g.is_paper_roll p.1 p.2 = true) :
    (removeAll g (p :: t)).occupiedCount < g.occupiedCount := by
  have h1 : removeAll g (p :: t) = removeAll (g.remove_item p.1 p.2) t := rfl
  rw [h1]
  exact Nat.lt_of_le_of_lt (occupiedCount_removeAll_le t _)
    (occupiedCount_remove_item_lt g p.1 p.2 h)

/-- An accessible cell is in particular occupied. -/
theorem is_paper_roll_of_accessible (g : Grid) (r c : Nat)
    (h : is_item_accessible g r c = true) : g.is_paper_roll r c = true := by
  cases hp : g.is_paper_roll r c
  · simp [is_item_accessible, hp] at h
  · rfl

/-- Every coordinate in the scan result is accessible. -/
theorem accessible_of_mem_find (g : Grid) (p : Nat × Nat)
    (h : p ∈ find_accessible_paper_rolls g) : is_item_accessible g p.1 p.2 = true :=
  (List.mem_filter.mp h).2

/-- A nonempty scan result makes the pass strictly decrease the occupied
count. -/
theorem occupiedCount_removeAll_find_lt (g : Grid)
    (h : ¬ find_accessible_paper_rolls g = []) :
    (removeAll g (find_accessible_paper_rolls g)).occupiedCount < g.occupiedCount := by
  obtain ⟨p, rest, hpr⟩ := List.exists_cons_of_ne_nil h
  rw [hpr]
  exact occupiedCount_removeAll_lt g p rest
    (is_paper_roll_of_accessible g p.1 p.2
      (accessible_of_mem_find g p (by rw [hpr]; exact List.mem_cons_self p rest)))

/-- `ForkLiftsHelper::iterative_remove_accessible_paper_rolls`, written as
state passing: returns the running total and the final grid. Each pass
collects the full scan result before removing anything, exactly as the
source loop collects `valid_paper_rolls` before the removal for-loop. -/
def iterativeLoop (g : Grid) (acc : Nat) : Nat × Grid :=
  if hv : find_accessible_paper_rolls g = [] then
    (acc, g)
  else
    iterativeLoop (removeAll g (find_accessible_paper_rolls g))
      (acc + (find_accessible_paper_rolls g).length)
termination_by g.occupiedCount
decreasing_by
  exact occupiedCount_removeAll_find_lt g hv

/-- The removal count returned by the source loop. -/
def iterative_remove_accessible_paper_rolls (g : Grid) : Nat :=
  (iterativeLoop g 0).1

/-- Spec name for the destructive loop count (`run_to_fixpoint`). -/
def run_to_fixpoint (g : Grid) : Nat :=
  (iterativeLoop g 0).1

/-- The grid state left behind by the destructive loop. -/
def run_to_fixpoint_grid (g : Grid) : Grid :=
  (iterativeLoop g 0).2

/-- Spec name for the non-destructive single-pass count
(`find_accessible_paper_rolls(..).count()` in `main`). -/
def count_single_pass_accessible (g : Grid) : Nat :=
  (find_accessible_paper_rolls g).length

/-- Fuel-indexed version of the loop, used to evaluate it and to bound the
number of passes. -/
def iterativeLoopFuel : Nat → Grid → Nat → Nat × Grid
  | 0, g, acc => (acc, g)
  | fuel + 1, g, acc =>
    if find_accessible_paper_rolls g = [] then
      (acc, g)
    else
      iterativeLoopFuel fuel (removeAll g (find_accessible_paper_rolls g))
        (acc + (find_accessible_paper_rolls g).length)

/-- Unfolding of the loop at a fixpoint. -/
theorem iterativeLoop_empty (g : Grid) (acc : Nat)
    (h : find_accessible_paper_rolls g = []) : iterativeLoop g acc = (acc, g) := by
  conv_lhs => rw [iterativeLoop]
  rw [dif_pos h]

/-- Unfolding of the loop at a nonempty pass. -/
theorem iterativeLoop_step (g : Grid) (acc : Nat)
    (h : ¬ find_accessible_paper_rolls g = []) :
    iterativeLoop g acc =
      iterativeLoop (removeAll g (find_accessible_paper_rolls g))
        (acc + (find_accessible_paper_rolls g).length) := by
  conv_lhs => rw [iterativeLoop]
  rw [dif_neg h]

/-- With fuel exceeding the occupied count the fuel loop agrees with the
loop: the iteration reaches its fixpoint within `occupiedCount` passes. -/
theorem iterativeLoopFuel_eq (fuel : Nat) : ∀ (g : Grid) (acc : Nat),
    g.occupiedCount < fuel → iterativeLoopFuel fuel g acc = iterativeLoop g acc := by
  induction fuel with
  | zero => intro g acc h; omega
  | succ fuel ih =>
    intro g acc h
    by_cases hv : find_accessible_paper_rolls g = []
    · rw [iterativeLoop_empty g acc hv]
      simp [iterativeLoopFuel, hv]
    · rw [iterativeLoop_step g acc hv]
      have hunf : iterativeLoopFuel (fuel + 1) g acc =
          iterativeLoopFuel fuel (removeAll g (find_accessible_paper_rolls g))
            (acc + (find_accessible_paper_rolls g).length) := by
        simp [iterativeLoopFuel, hv]
      rw [hunf]
      exact ih _ _
        (Nat.lt_of_lt_of_le (occupiedCount_removeAll_find_lt g hv) (Nat.lt_succ_iff.mp h))

/-- `GridType::from<&char>`: a dot parses to `Empty`, an at sign to
`PaperRoll`; any other character is a parse failure (the source panics
there, modelled as `none`). -/
def GridType.fromChar : Char → Option GridType
  | '.' => some GridType.Empty
  | '@' => some GridType.PaperRoll
  | _ => none

/-- Whitespace predicate of the modelled `str::trim` (ASCII whitespace,
which covers every input the program handles). -/
def isWS (c : Char) : Bool :=
  c.isWhitespace

/-- Model of Rust `str::trim` on a character list: drop whitespace from both
ends. -/
def trimChars (l : List Char) : List Char :=
  ((l.dropWhile isWS).reverse.dropWhile isWS).reverse

/-- Helper of `splitLines`: accumulate the current line until a newline. -/
def splitLinesAux : List Char → List Char → List (List Char)
  | [], acc => [acc.reverse]
  | c :: rest, acc =>
    if c = '\n' then acc.reverse :: splitLinesAux rest []
    else splitLinesAux rest (c :: acc)

/-- Model of Rust `str::lines` on an already-trimmed character list: an
empty input yields no lines, otherwise split at newlines. -/
def splitLines (l : List Char) : List (List Char) :=
  if l = [] then [] else splitLinesAux l []

/-- `Grid::from<&str>`: trim the input, split into lines, trim and parse
each line; `n_rows` is the number of lines and `n_columns` the length of
the first row (or 0 when there is none). -/
def Grid.fromChars (input : List Char) : Option Grid :=
  match (splitLines (trimChars input)).mapM
      (fun line => (trimChars line).mapM GridType.fromChar) with
  | none => none
  | some rows =>
    some { n_rows := rows.length, n_columns := (rows.headD []).length, data := rows }

/-- The literal 10 by 10 example grid of the spec and the source test. -/
def exampleInput : String :=
  "..@@.@@@@.\n@@@.@.@.@@\n@@@@@.@.@@\n@.@@@@..@.\n@@.@@@@.@@\n.@@@@@@@.@\n.@.@.@.@@@\n@.@@@.@@@@\n.@@@@@@@@.\n@.@.@@@.@."

/-- The parsed example grid. -/
def exampleGrid : Grid :=
  (Grid.fromChars exampleInput.toList).getD { n_rows := 0, n_columns := 0, data := [] }

/-- The occupied-neighbor count computed inside `is_item_accessible`. -/
def neighbor_occupied_count (g : Grid) (row col : Nat) : Nat :=
  ((ADJACENT_OFFSETS.map (fun o => ((row : Int) + o.1, (col : Int) + o.2))).filter
    (fun p => g.is_within_bounds p.1 p.2 && g.is_paper_roll p.1.toNat p.2.toNat)).length

/-- The number of offset positions that are within bounds at all. -/
def inbounds_neighbor_positions (g : Grid) (row col : Nat) : Nat :=
  ((ADJACENT_OFFSETS.map (fun o => ((row : Int) + o.1, (col : Int) + o.2))).filter
    (fun p => g.is_within_bounds p.1 p.2)).length

/-- `is_item_accessible` factored through the neighbor count. -/
theorem is_item_accessible_eq (g : Grid) (row col : Nat) :
    is_item_accessible g row col =
      (g.is_paper_roll row col && decide (neighbor_occupied_count g row col < 4)) := by
  unfold is_item_accessible neighbor_occupied_count
  cases hp : g.is_paper_roll row col <;> simp [hp]

/-- The spec's reading of one occupied in-bounds neighbor: the probe
position exists in the grid and holds a paper roll. -/
def spec_neighbor_occupied (g : Grid) (p : Int × Int) : Prop :=
  0 ≤ p.1 ∧ p.1 < (g.n_rows : Int) ∧ 0 ≤ p.2 ∧ p.2 < (g.n_columns : Int) ∧
    g.cell p.1.toNat p.2.toNat = GridType.PaperRoll

instance (g : Grid) (p : Int × Int) : Decidable (spec_neighbor_occupied g p) := by
  unfold spec_neighbor_occupied
  infer_instance

/-- The spec's accessibility rule, stated from the spec's words: the cell is
occupied, and among the eight unit offsets strictly fewer than 4 give an
in-bounds occupied neighbor. -/
def spec_accessible (g : Grid) (row col : Nat) : Prop :=
  g.cell row col = GridType.PaperRoll ∧
    (ADJACENT_OFFSETS.countP fun o =>
      decide (spec_neighbor_occupied g ((row : Int) + o.1, (col : Int) + o.2))) < 4

/-- The code's filtered-length neighbor count as a `countP` over offsets. -/
theorem neighbor_occupied_count_eq_countP (g : Grid) (row col : Nat) :
    neighbor_occupied_count g row col =
      ADJACENT_OFFSETS.countP (fun o =>
        g.is_within_bounds ((row : Int) + o.1) ((col : Int) + o.2) &&
        g.is_paper_roll ((row : Int) + o.1).toNat ((col : Int) + o.2).toNat) := by
  unfold neighbor_occupied_count
  rw [← List.countP_eq_length_filter, List.countP_map]
  rfl

/-- The code's per-position test agrees with the spec's reading. -/
theorem neighbor_pred_eq (g : Grid) (a b : Int) :
    (g.is_within_bounds a b && g.is_paper_roll a.toNat b.toNat) =
      decide (spec_neighbor_occupied g (a, b)) := by
  rw [Bool.eq_iff_iff]
  simp [Grid.is_within_bounds, Grid.is_paper_roll, spec_neighbor_occupied, and_assoc]

/-- Effect of a whole pass on a cell: removed coordinates read `Empty`,
all others are unchanged. -/
theorem cell_removeAll (coords : List (Nat × Nat)) (g : Grid) (r c : Nat) :
    (removeAll g coords).cell r c =
      if (r, c) ∈ coords then GridType.Empty else g.cell r c := by
  induction coords generalizing g with
  | nil => simp [removeAll]
  | cons p t ih =>
    have h1 : removeAll g (p :: t) = removeAll (g.remove_item p.1 p.2) t := rfl
    rw [h1, ih, cell_remove_item]
    simp only [List.mem_cons]
    by_cases h2 : (r, c) = p <;> by_cases h3 : (r, c) ∈ t <;>
      simp [h2, h3, Prod.ext_iff] <;> simp_all [Prod.ext_iff]

/-- The scan result has no duplicate coordinates. -/
theorem find_accessible_nodup (g : Grid) : (find_accessible_paper_rolls g).Nodup := by
  unfold find_accessible_paper_rolls
  apply List.Nodup.filter
  have hprod : (List.range g.n_rows).flatMap
      (fun row_index => (List.range g.n_columns).map (fun col_index => (row_index, col_index))) =
      (List.range g.n_rows) ×ˢ (List.range g.n_columns) := rfl
  rw [hprod]
  exact List.Nodup.product (List.nodup_range g.n_rows) (List.nodup_range g.n_columns)

/-- Sum of a mapped list bounded by length times a uniform bound. -/
theorem sum_map_le_mul {α : Type} (L : List α) (f : α → Nat) (b : Nat)
    (h : ∀ x ∈ L, f x ≤ b) : (L.map f).sum ≤ L.length * b := by
  induction L with
  | nil => simp
  | cons a t ih =>
    simp only [List.map_cons, List.sum_cons, List.length_cons]
    have ht := ih (fun x hx => h x (List.mem_cons_of_mem a hx))
    have ha := h a (List.mem_cons_self a t)
    calc f a + (t.map f).sum ≤ b + t.length * b := Nat.add_le_add ha ht
      _ = (t.length + 1) * b := by ring

/-- On a well-formed grid the occupied count is at most the cell count. -/
theorem occupiedCount_le_of_wf (g : Grid) (h : g.WF) :
    g.occupiedCount ≤ g.n_rows * g.n_columns := by
  unfold Grid.occupiedCount
  have hb : ∀ row ∈ g.data,
      row.countP (fun x => decide (x = GridType.PaperRoll)) ≤ g.n_columns := by
    intro row hrow
    calc row.countP (fun x => decide (x = GridType.PaperRoll)) ≤ row.length :=
        List.countP_le_length _
      _ = g.n_columns := h.2 row hrow
  calc (g.data.map (fun row => row.countP (fun x => decide (x = GridType.PaperRoll)))).sum
      ≤ g.data.length * g.n_columns := sum_map_le_mul _ _ _ hb
    _ = g.n_rows * g.n_columns := by rw [h.1]

/-- The grid the loop returns admits no further accessible cell. -/
theorem find_accessible_loop_result (g : Grid) (acc : Nat) :
    find_accessible_paper_rolls (iterativeLoop g acc).2 = [] := by
  by_cases hv : find_accessible_paper_rolls g = []
  · rw [iterativeLoop_empty g acc hv]
    exact hv
  · rw [iterativeLoop_step g acc hv]
    exact find_accessible_loop_result _ _
termination_by g.occupiedCount
decreasing_by exact occupiedCount_removeAll_find_lt g hv

/-- A successful bounds check certifies that both indices are valid for the
stored data of a well-formed grid. -/
theorem inbounds_index_valid (g : Grid) (hwf : g.WF) (ri ci : Int)
    (h : g.is_within_bounds ri ci = true) :
    ri.toNat < g.data.length ∧ ci.toNat < (g.data.getD ri.toNat []).length := by
  unfold Grid.is_within_bounds at h
  simp only [Bool.and_eq_true, decide_eq_true_eq, ge_iff_le] at h
  obtain ⟨⟨⟨h1, h2⟩, h3⟩, h4⟩ := h
  have hrlen : ri.toNat < g.data.length := by
    rw [hwf.1]
    omega
  refine ⟨hrlen, ?_⟩
  have hgetD : g.data.getD ri.toNat [] = g.data[ri.toNat] := by
    rw [List.getD_eq_getElem?_getD, List.getElem?_eq_getElem hrlen, Option.getD_some]
  rw [hgetD, hwf.2 _ (List.getElem_mem hrlen)]
  omega

/-- Trimming an all-whitespace character list leaves nothing. -/
theorem trimChars_eq_nil (l : List Char) (h : ∀ c ∈ l, isWS c = true) :
    trimChars l = [] := by
  unfold trimChars
  have h1 : l.dropWhile isWS = [] := by
    rw [List.dropWhile_eq_nil_iff]
    exact fun c hc => h c hc
  rw [h1]
  rfl

/-- Parsing an all-whitespace input yields the degenerate empty grid. -/
theorem fromChars_whitespace (l : List Char) (h : ∀ c ∈ l, isWS c = true) :
    Grid.fromChars l = some { n_rows := 0, n_columns := 0, data := [] } := by
  unfold Grid.fromChars
  rw [trimChars_eq_nil l h]
  rfl

/-- The code's occupied-neighbor count never exceeds the number of
in-bounds neighbor positions. -/
theorem neighbor_occupied_count_le_positions (g : Grid) (row col : Nat) :
    neighbor_occupied_count g row col ≤ inbounds_neighbor_positions g row col := by
  unfold neighbor_occupied_count inbounds_neighbor_positions
  rw [← List.countP_eq_length_filter, ← List.countP_eq_length_filter]
  refine List.countP_mono_left ?_
  intro x _ hx
  simp only [Bool.and_eq_true] at hx
  exact hx.1

/-- A one-cell grid holding a single paper roll (concrete test input). -/
def gridOne : Grid :=
  { n_rows := 1, n_columns := 1, data := [[GridType.PaperRoll]] }

/-- A fully occupied two-by-two grid (concrete test input). -/
def gridTwo : Grid :=
  { n_rows := 2, n_columns := 2,
    data := [[GridType.PaperRoll, GridType.PaperRoll],
             [GridType.PaperRoll, GridType.PaperRoll]] }

/-- C1: for every grid and in-bounds coordinate, `is_item_accessible` holds
iff the cell is occupied and strictly fewer than 4 of the eight neighboring
positions that lie within grid bounds are occupied; out-of-bounds neighbor
positions contribute nothing to the count. -/
theorem accessible_iff_spec (g : Grid) (row col : Nat)
    (hr : row < g.n_rows) (hc : col < g.n_columns) :
    is_item_accessible g row col = true ↔ spec_accessible g row col := by
  rw [is_item_accessible_eq]
  unfold spec_accessible
  have hcnt : neighbor_occupied_count g row col =
      ADJACENT_OFFSETS.countP (fun o =>
        decide (spec_neighbor_occupied g ((row : Int) + o.1, (col : Int) + o.2))) := by
    rw [neighbor_occupied_count_eq_countP]
    refine List.countP_congr ?_
    intro o _
    rw [neighbor_pred_eq g ((row : Int) + o.1) ((col : Int) + o.2)]
  rw [hcnt]
  simp [Grid.is_paper_roll]

/-- Witness for C1 at the one-cell grid. -/
theorem accessible_iff_spec_witness :
    (0 < gridOne.n_rows) ∧
      (is_item_accessible gridOne 0 0 = true ↔ spec_accessible gridOne 0 0) :=
  ⟨by decide, accessible_iff_spec gridOne 0 0 (by decide) (by decide)⟩

set_option maxRecDepth 100000 in
set_option maxHeartbeats 4000000 in
/-- C2: on the literal 10 by 10 example grid the single-pass count is 13 and
the destructive fixpoint run removes 43 cells. -/
theorem example_grid_values :
    count_single_pass_accessible exampleGrid = 13 ∧ run_to_fixpoint exampleGrid = 43 := by
  constructor
  · decide
  · have h : iterativeLoopFuel 101 exampleGrid 0 = iterativeLoop exampleGrid 0 :=
      iterativeLoopFuel_eq 101 exampleGrid 0 (by decide)
    unfold run_to_fixpoint
    rw [← h]
    decide

/-- C3: a nonempty pass removes exactly the coordinates accessible in the
grid state at the start of the pass — the coordinate list is materialized
from one snapshot and has no duplicates, every listed cell and only those
become `Empty`, and the running total grows by the list's length. -/
theorem pass_semantics (g : Grid) (acc : Nat) (p : Nat × Nat) (rest : List (Nat × Nat))
    (h : find_accessible_paper_rolls g = p :: rest) :
    iterativeLoop g acc =
      iterativeLoop (removeAll g (find_accessible_paper_rolls g))
        (acc + (find_accessible_paper_rolls g).length)
    ∧ (find_accessible_paper_rolls g).Nodup
    ∧ ∀ r c : Nat, (removeAll g (find_accessible_paper_rolls g)).cell r c =
        if (r, c) ∈ find_accessible_paper_rolls g then GridType.Empty else g.cell r c :=
  ⟨iterativeLoop_step g acc (by rw [h]; exact List.cons_ne_nil p rest),
    find_accessible_nodup g,
    fun r c => cell_removeAll (find_accessible_paper_rolls g) g r c⟩

/-- Witness for C3 at the one-cell grid, whose only cell is accessible. -/
theorem pass_semantics_witness :
    iterativeLoop gridOne 0 =
      iterativeLoop (removeAll gridOne (find_accessible_paper_rolls gridOne))
        (0 + (find_accessible_paper_rolls gridOne).length)
    ∧ (find_accessible_paper_rolls gridOne).Nodup
    ∧ (removeAll gridOne (find_accessible_paper_rolls gridOne)).cell 0 0 =
        if ((0 : Nat), (0 : Nat)) ∈ find_accessible_paper_rolls gridOne then GridType.Empty
        else gridOne.cell 0 0 := by
  obtain ⟨h1, h2, h3⟩ := pass_semantics gridOne 0 (0, 0) [] (by decide)
  exact ⟨h1, h2, h3 0 0⟩

/-- C4: the loop terminates on every well-formed grid — the occupied count
never increases across a pass, strictly decreases on a nonempty pass, is
bounded by the cell count, and the run reaches its fixpoint within
`n_rows * n_columns` passes (fuel `n_rows * n_columns + 1` already agrees
with the unbounded loop). -/
theorem run_to_fixpoint_terminates (g : Grid) (hwf : g.WF) :
    (∀ coords : List (Nat × Nat), (removeAll g coords).occupiedCount ≤ g.occupiedCount)
    ∧ (¬ find_accessible_paper_rolls g = [] →
        (removeAll g (find_accessible_paper_rolls g)).occupiedCount < g.occupiedCount)
    ∧ g.occupiedCount ≤ g.n_rows * g.n_columns
    ∧ ∀ acc : Nat,
        iterativeLoopFuel (g.n_rows * g.n_columns + 1) g acc = iterativeLoop g acc :=
  ⟨fun coords => occupiedCount_removeAll_le coords g,
    occupiedCount_removeAll_find_lt g,
    occupiedCount_le_of_wf g hwf,
    fun acc => iterativeLoopFuel_eq _ g acc
      (Nat.lt_succ_of_le (occupiedCount_le_of_wf g hwf))⟩

/-- Witness for C4 at the one-cell grid. -/
theorem run_to_fixpoint_terminates_witness :
    gridOne.WF ∧
      iterativeLoopFuel (gridOne.n_rows * gridOne.n_columns + 1) gridOne 0 =
        iterativeLoop gridOne 0 :=
  ⟨by decide, (run_to_fixpoint_terminates gridOne (by decide)).2.2.2 0⟩

/-- C5: the grid state left behind by the destructive run is a fixpoint —
its single-pass accessible count is 0. -/
theorem fixpoint_idempotent (g : Grid) :
    count_single_pass_accessible (run_to_fixpoint_grid g) = 0 := by
  unfold count_single_pass_accessible run_to_fixpoint_grid
  rw [find_accessible_loop_result g 0]
  rfl

/-- C6: the non-destructive single-pass count equals the length of the
coordinate list collected by the first iteration of the destructive loop on
an identical grid (the amount that first pass adds to the running total). -/
theorem single_pass_consistency (g : Grid) :
    count_single_pass_accessible g = (find_accessible_paper_rolls g).length
    ∧ count_single_pass_accessible g = (iterativeLoopFuel 1 g 0).1 := by
  refine ⟨rfl, ?_⟩
  by_cases hv : find_accessible_paper_rolls g = []
  · simp [iterativeLoopFuel, hv, count_single_pass_accessible]
  · simp [iterativeLoopFuel, hv, count_single_pass_accessible]

/-- C7: the bounds test accepts arbitrary signed coordinates and holds
exactly on the box `0 ≤ row < n_rows`, `0 ≤ col < n_columns`. -/
theorem is_within_bounds_iff (g : Grid) (row col : Int) :
    g.is_within_bounds row col = true ↔
      (0 ≤ row ∧ row < (g.n_rows : Int) ∧ 0 ≤ col ∧ col < (g.n_columns : Int)) := by
  simp [Grid.is_within_bounds, and_assoc]

/-- C8: an occupied cell with exactly 4 occupied in-bounds neighbors is
never accessible, one with exactly 3 is accessible, and one with at most 3
in-bounds neighbor positions altogether (e.g. a corner) is accessible no
matter how its neighbors are occupied. -/
theorem neighbor_count_boundary (g : Grid) (row col : Nat)
    (hocc : g.is_paper_roll row col = true) :
    (neighbor_occupied_count g row col = 4 → is_item_accessible g row col = false)
    ∧ (neighbor_occupied_count g row col = 3 → is_item_accessible g row col = true)
    ∧ (inbounds_neighbor_positions g row col ≤ 3 → is_item_accessible g row col = true) := by
  refine ⟨?_, ?_, ?_⟩ <;> intro h <;> rw [is_item_accessible_eq, hocc]
  · simp [h]
  · simp [h]
  · have hle := neighbor_occupied_count_le_positions g row col
    have hlt : neighbor_occupied_count g row col < 4 := by omega
    simp [hlt]

/-- Witness for C8 at the one-cell grid: zero in-bounds neighbor positions,
so the corner clause applies and the cell is accessible. -/
theorem neighbor_count_boundary_witness :
    gridOne.is_paper_roll 0 0 = true ∧ is_item_accessible gridOne 0 0 = true :=
  ⟨by decide, (neighbor_count_boundary gridOne 0 0 (by decide)).2.2 (by decide)⟩

/-- C9: on a well-formed grid, whenever the bounds test of a neighbor probe
succeeds inside `is_item_accessible`, the converted indices are valid for
the stored data, so the guarded occupancy read never goes out of bounds. -/
theorem no_oob_access (g : Grid) (hwf : g.WF) (row col : Nat)
    (hr : row < g.n_rows) (hc : col < g.n_columns) :
    ∀ o ∈ ADJACENT_OFFSETS,
      g.is_within_bounds ((row : Int) + o.1) ((col : Int) + o.2) = true →
        ((row : Int) + o.1).toNat < g.data.length ∧
        ((col : Int) + o.2).toNat < (g.data.getD ((row : Int) + o.1).toNat []).length :=
  fun _ _ h => inbounds_index_valid g hwf _ _ h

/-- Witness for C9 at the two-by-two grid with the offset (1, 0). -/
theorem no_oob_access_witness :
    (((0 : Nat) : Int) + ((1 : Int), (0 : Int)).1).toNat < gridTwo.data.length ∧
      (((0 : Nat) : Int) + ((1 : Int), (0 : Int)).2).toNat <
        (gridTwo.data.getD (((0 : Nat) : Int) + ((1 : Int), (0 : Int)).1).toNat []).length :=
  no_oob_access gridTwo (by decide) 0 0 (by decide) (by decide)
    ((1 : Int), (0 : Int)) (by decide) (by decide)

/-- C10: constructing a grid from input text with no non-whitespace content
succeeds and yields the degenerate zero-by-zero grid, whose scan is empty
and whose fixpoint run removes nothing. -/
theorem degenerate_grid (l : List Char) (h : ∀ c ∈ l, isWS c = true) :
    Grid.fromChars l = some { n_rows := 0, n_columns := 0, data := [] }
    ∧ find_accessible_paper_rolls { n_rows := 0, n_columns := 0, data := [] } = []
    ∧ run_to_fixpoint { n_rows := 0, n_columns := 0, data := [] } = 0 := by
  refine ⟨fromChars_whitespace l h, rfl, ?_⟩
  unfold run_to_fixpoint
  rw [iterativeLoop_empty { n_rows := 0, n_columns := 0, data := [] } 0 (by rfl)]

/-- Witness for C10 on a two-character whitespace input. -/
theorem degenerate_grid_witness :
    (∀ c ∈ [' ', '\n'], isWS c = true) ∧
      Grid.fromChars [' ', '\n'] = some { n_rows := 0, n_columns := 0, data := [] } :=
  ⟨by decide, (degenerate_grid [' ', '\n'] (by decide)).1⟩
